import Mathlib

/-!
Verification development for the EnergyPlus SQLite result parser
(honeybee_energy/result/sql.py, class SQLiteResult).

The Python functions are shallowly embedded as executable Lean
definitions.  Conventions of the embedding:

* SQLite rows are records whose fields correspond to the tuple
  positions the Python code reads (the field-to-position map is noted
  on each structure).
* Operations that can raise a Python exception (list or tuple indexing
  out of range, division by zero, a zero step in range) return
  Except String; a returned error models the raised exception.
* Python floats are modelled as rationals: the only arithmetic the
  code performs on values is division by the constant 3600000, and the
  only arithmetic on the minutes-per-step field is int(60 / m), whose
  float rounding cannot cross an integer boundary (60 / m is either
  exactly representable or strictly between integers with a relative
  error far below 1), so int(60 / m) equals truncating rational
  division.
* Python's % on integers agrees with Int.emod, and int() truncation of
  an exact quotient agrees with Int.tdiv.
-/

/-- Python list/tuple indexing with a non-negative index:
xs[i] raises IndexError when i is out of range. -/
def pyGet (l : List α) (i : Nat) : Except String α :=
  if h : i < l.length then .ok (l.get ⟨i, h⟩) else .error "IndexError: index out of range"

/-- Python list/tuple indexing with a possibly negative index:
a negative index counts from the end of the sequence. -/
def pyGetInt (l : List α) (i : Int) : Except String α :=
  if 0 ≤ i then pyGet l i.toNat
  else if (-i).toNat ≤ l.length then pyGet l (l.length - (-i).toNat)
  else .error "IndexError: index out of range"

/-- Python dict literal with two entries: a duplicate key collapses to a
single entry whose value is the later one. -/
def pyDict2 (k1 : String) (v1 : String) (k2 : String) (v2 : String) :
    List (String × String) :=
  if k1 = k2 then [(k1, v2)] else [(k1, v1), (k2, v2)]

/-- Python substring containment needle in haystack for strings. -/
def strContains (needle haystack : String) : Bool :=
  decide (needle.toList <:+: haystack.toList)

/-! ## Run-period / frequency decoding (SQLiteResult._extract_run_period) -/

/-- SQLiteResult._interval_codes, the fixed ordered tuple
('Timestep', 'Hourly', 'Daily', 'Monthly', 'Annual'). -/
def interval_codes : List String :=
  ["Timestep", "Hourly", "Daily", "Monthly", "Annual"]

/-- The reporting_frequency variable of _extract_run_period is either a
Python int (steps per hour) or one of the strings of interval_codes. -/
inductive ReportingFrequency where
  | steps : Int → ReportingFrequency
  | named : String → ReportingFrequency
deriving DecidableEq, Repr

/-- One row of the Time table.  Field-to-position map of the Python
tuple: timeIndex = row[0], year = row[1], month = row[2], day = row[3],
hour = row[4], minute = row[5], dst = row[6], interval = row[7]
(minutes per reporting step), intervalType = row[8]. -/
structure TimeRow where
  timeIndex : Int
  year : Int
  month : Int
  day : Int
  hour : Int
  minute : Int
  dst : Int
  interval : Int
  intervalType : Int
deriving DecidableEq, Repr

/-- The ladybug DateTime values the code builds, restricted to the three
constructor arguments it passes and the three attributes it reads
(month, day, hour). -/
structure PyDate where
  month : Int
  day : Int
  hour : Int
deriving DecidableEq, Repr

/-- The AnalysisPeriod the code constructs, as the record of the eight
positional arguments it passes. -/
structure AnalysisPeriod where
  stMonth : Int
  stDay : Int
  stHour : Int
  endMonth : Int
  endDay : Int
  endHour : Int
  timestep : Int
  isLeapYear : Bool
deriving DecidableEq, Repr, Inhabited

/-- Lines 196-204 of sql.py: decode the reporting frequency from the
interval-type code (start[8]) and the minutes-per-step field (start[7]).
Returns (reporting_frequency, aper_timestep, min_per_step).
int(60 / min_per_step) truncates toward zero, i.e. Int.tdiv;
min_per_step = 0 raises ZeroDivisionError. -/
def decodeInterval (interval_typ : Int) (min_per_step_field : Int) :
    Except String (ReportingFrequency × Int × Int) :=
  if interval_typ ≤ 1 then
    if min_per_step_field = 0 then .error "ZeroDivisionError: division by zero"
    else
      let aper_timestep := Int.tdiv 60 min_per_step_field
      .ok (.steps aper_timestep, aper_timestep, min_per_step_field)
  else
    match pyGetInt interval_codes interval_typ with
    | .ok s => .ok (.named s, 1, 60)
    | .error e => .error e

/-- Lines 195-218 of sql.py (SQLiteResult._extract_run_period) given the
two boundary Time rows.  The ladybug DateTime.add_minute operation is an
external library call; the embedding is parametric in it (addMinute),
so every theorem below holds for any calendar semantics of add_minute. -/
def extract_run_period (addMinute : PyDate → Int → PyDate)
    (start : TimeRow) (endRow : TimeRow) :
    Except String (AnalysisPeriod × ReportingFrequency) := do
  let (reporting_frequency, aper_timestep, min_per_step) ←
    decodeInterval start.intervalType start.interval
  let leap_year := decide (start.year % 4 = 0)
  let st_date : PyDate :=
    if reporting_frequency = .named "Monthly" then
      { month := start.month, day := 1, hour := 0 }
    else
      { month := start.month, day := start.day, hour := 0 }
  let end_ineOpen : PyDate := { month := endRow.month, day := endRow.day, hour := 0 }
  let end_date := addMinute end_ineOpen (1440 - min_per_step)
  .ok ({ stMonth := st_date.month, stDay := st_date.day, stHour := st_date.hour,
         endMonth := end_date.month, endDay := end_date.day, endHour := end_date.hour,
         timestep := aper_timestep, isLeapYear := leap_year },
       reporting_frequency)

/-! ## Location extraction (SQLiteResult._extract_location) -/

/-- Python str.split with a one-character separator, on the character
list: splits at every occurrence of sep and keeps empty pieces, so the
result always has at least one piece. -/
def splitChar (sep : Char) : List Char → List (List Char)
  | [] => [[]]
  | c :: cs =>
    match splitChar sep cs with
    | [] => [[]]
    | t :: ts => if c = sep then [] :: t :: ts else (c :: t) :: ts

/-- Python s.split(sep) for a one-character separator (the code only
splits on a single space and on a single equals sign). -/
def pySplit (s : String) (sep : Char) : List String :=
  (splitChar sep s.toList).map (fun cs => String.mk cs)

/-- The Location object the code constructs, as the record of the seven
keyword arguments it passes. -/
structure Location where
  city : String
  source : String
  stationId : String
  latitude : String
  longitude : String
  timeZone : String
  elevation : String
deriving DecidableEq, Repr

/-- Lines 155-170 of sql.py (SQLiteResult._extract_location), taking the
list of Value strings of the rows of the 'General' tabular report (each
SQL row is a 1-tuple, so general[i][0] is modelled as indexing the value
list).  An empty report leaves the location absent (ok none); indexing
errors propagate as Except errors.  The keyword arguments are evaluated
left to right, so general[3], general[4], general[6], general[5] are
read in that order. -/
def extract_location (general : List String) : Except String (Option Location) :=
  if general = [] then .ok none
  else do
    let row2 ← pyGet general 2
    let split_id := pySplit row2 ' '
    let city := String.intercalate " " (split_id.take (split_id.length - 2))
    let source ← pyGetInt split_id (-2)
    let lastTok ← pyGetInt split_id (-1)
    let station_id ← pyGetInt (pySplit lastTok '=') (-1)
    let latitude ← pyGet general 3
    let longitude ← pyGet general 4
    let time_zone ← pyGet general 6
    let elevation ← pyGet general 5
    .ok (some { city := city, source := source, stationId := station_id,
                latitude := latitude, longitude := longitude,
                timeZone := time_zone, elevation := elevation })

/-! ## Time-series reconstruction (SQLiteResult._clean_timeseries_data and
_clean_and_convert_timeseries_data) -/

/-- Python zip over the tail lists of zip(*all_values): advance while the
first list (recursed on structurally) and every other list are nonempty,
truncating at the shortest input. -/
def pyZipGo : List α → List (List α) → List (List α)
  | [], _ => []
  | a :: l, rest =>
    if rest.all (fun t => !t.isEmpty) then
      (a :: rest.map (fun t => t.headD a)) :: pyZipGo l (rest.map List.tail)
    else []

/-- Python zip(*ls): with no arguments the result is empty; otherwise the
transposition truncated at the shortest list. -/
def pyZip (ls : List (List α)) : List (List α) :=
  match ls with
  | [] => []
  | l :: rest => pyZipGo l rest

/-- The block decomposition of lines 241-242 / 249-250 of sql.py:
for i in range(0, len(data), n_lists) the slice data[i:i+n_lists],
with each row projected by f (val[0], optionally divided).  range with a
zero step raises ValueError, handled by the callers below. -/
def pyBlocks (f : α → β) (data : List α) (n_lists : Nat) : List (List β) :=
  (List.range' 0 ((data.length + n_lists - 1) / n_lists) n_lists).map
    (fun i => ((data.drop i).take n_lists).map f)

/-- Lines 237-243 of sql.py (SQLiteResult._clean_timeseries_data): data
is the list of (Value, TimeIndex) rows; the value of each row in each
block is kept as is and the blocks are transposed with zip. -/
def clean_timeseries_data (data : List (ℚ × Int)) (n_lists : Nat) :
    Except String (List (List ℚ)) :=
  if n_lists = 0 then .error "ValueError: range arg 3 must not be zero"
  else .ok (pyZip (pyBlocks Prod.fst data n_lists))

/-- Lines 245-251 of sql.py (SQLiteResult._clean_and_convert_timeseries_data):
identical to _clean_timeseries_data except each value is divided by
3600000 (Joules to kWh). -/
def clean_and_convert_timeseries_data (data : List (ℚ × Int)) (n_lists : Nat) :
    Except String (List (List ℚ)) :=
  if n_lists = 0 then .error "ValueError: range arg 3 must not be zero"
  else .ok (pyZip (pyBlocks (fun v => v.1 / 3600000) data n_lists))

/-! ## Header construction and unit conversion
(SQLiteResult.data_collections_by_output_name, lines 101-115) -/

/-- One row of the ReportDataDictionary table.  Field-to-position map of
the Python tuple: rowIndex = row[0], indexGroup = row[3] (the stored
object type), keyValue = row[5] (the object name), name = row[6] (the
output name), units = row[8] = row[-1]. -/
structure DictRow where
  rowIndex : Int
  indexGroup : String
  keyValue : String
  name : String
  units : String
deriving DecidableEq, Repr, Inhabited

/-- Line 102 of sql.py: the units of the whole batch come from the first
header row only, with 'J' rewritten to 'kWh'. -/
def effectiveUnits (rawUnits : String) : String :=
  if rawUnits ≠ "J" then rawUnits else "kWh"

/-- The Header objects the code constructs: data type, unit string, run
period and the metadata dict. -/
structure HeaderL where
  dataType : String
  units : String
  period : AnalysisPeriod
  metadata : List (String × String)
deriving DecidableEq, Repr, Inhabited

/-- Lines 101-108 of sql.py: one Header per dictionary row.  The units
and the data type are computed once from the first row; the metadata
dict holds the output name under 'type' and the object name under the
object type, which is forced to 'Surface' when the requested output name
contains 'Surface'.  The ladybug mapping from a unit string to a data
type is an external library call (_data_type_from_unit); the embedding
is parametric in it (dataTypeFromUnit). -/
def dataCollectionsHeaders (dataTypeFromUnit : String → String)
    (output_name : String) (header_rows : List DictRow)
    (run_period : AnalysisPeriod) : List HeaderL :=
  let units := effectiveUnits ((header_rows.headD default).units)
  let data_type := dataTypeFromUnit units
  header_rows.map (fun row =>
    let obj_type := if !(strContains "Surface" output_name) then row.indexGroup
      else "Surface"
    { dataType := data_type, units := units, period := run_period,
      metadata := pyDict2 "type" row.name obj_type row.keyValue })

/-- Lines 110-115 of sql.py: the values are regrouped into one list per
header row, and are converted to kWh exactly when the effective unit of
the batch is 'kWh'. -/
def dataCollectionsValues (header_rows : List DictRow) (data : List (ℚ × Int)) :
    Except String (List (List ℚ)) :=
  let units := effectiveUnits ((header_rows.headD default).units)
  let n_lists := header_rows.length
  if units = "kWh" then clean_and_convert_timeseries_data data n_lists
  else clean_timeseries_data data n_lists

/-! ## Lemmas about the zip-transposition -/

/-- Minimum length of the lists of rest, capped at n. -/
def minFold (rest : List (List α)) (n : Nat) : Nat :=
  rest.foldr (fun t m => min t.length m) n

/-- Length of the shortest list of ls (0 for no lists): the number of
tuples Python zip produces. -/
def minLenAll (ls : List (List α)) : Nat :=
  match ls with
  | [] => 0
  | l :: rest => minFold rest l.length

theorem minFold_le_init (rest : List (List α)) (n : Nat) : minFold rest n ≤ n := by
  induction rest with
  | nil => exact Nat.le_refl n
  | cons t r ih => exact le_trans (Nat.min_le_right _ _) ih

theorem minFold_le_mem {rest : List (List α)} {t : List α} (h : t ∈ rest) (n : Nat) :
    minFold rest n ≤ t.length := by
  induction rest with
  | nil => cases h
  | cons u r ih =>
    rcases List.mem_cons.mp h with rfl | hr
    · exact Nat.min_le_left _ _
    · exact le_trans (Nat.min_le_right _ _) (ih hr)

theorem le_minFold {rest : List (List α)} {m n : Nat}
    (h : ∀ t ∈ rest, m ≤ t.length) (hn : m ≤ n) : m ≤ minFold rest n := by
  induction rest with
  | nil => exact hn
  | cons u r ih =>
    exact le_min (h u (List.mem_cons_self u r))
      (ih (fun t ht => h t (List.mem_cons_of_mem u ht)))

theorem minFold_zero (rest : List (List α)) : minFold rest 0 = 0 :=
  Nat.le_zero.mp (minFold_le_init rest 0)

theorem minFold_eq_zero_of_mem_nil {rest : List (List α)} {t : List α}
    (h : t ∈ rest) (ht : t = []) (n : Nat) : minFold rest n = 0 := by
  have := minFold_le_mem h n
  simp [ht] at this
  exact this

theorem minFold_map_tail {rest : List (List α)} (h : ∀ t ∈ rest, t ≠ []) (n : Nat) :
    minFold (rest.map List.tail) n + 1 = minFold rest (n + 1) := by
  induction rest with
  | nil => rfl
  | cons u r ih =>
    have hu : u ≠ [] := h u (List.mem_cons_self u r)
    have hr : ∀ t ∈ r, t ≠ [] := fun t ht => h t (List.mem_cons_of_mem u ht)
    have hlen : u.tail.length + 1 = u.length := by
      have : 0 < u.length := List.length_pos.mpr hu
      simp [List.length_tail]
      omega
    calc minFold (List.map List.tail (u :: r)) n + 1
        = min (u.tail.length) (minFold (r.map List.tail) n) + 1 := rfl
      _ = min (u.tail.length + 1) (minFold (r.map List.tail) n + 1) := by
          omega
      _ = min u.length (minFold r (n + 1)) := by rw [hlen, ih hr]
      _ = minFold (u :: r) (n + 1) := rfl

theorem pyZipGo_length (l : List α) (rest : List (List α)) :
    (pyZipGo l rest).length = minFold rest l.length := by
  induction l generalizing rest with
  | nil => simp [pyZipGo, minFold_zero]
  | cons a l ih =>
    by_cases h : rest.all (fun t => !t.isEmpty)
    · have hne : ∀ t ∈ rest, t ≠ [] := by
        intro t ht
        have := List.all_eq_true.mp h t ht
        simpa [List.isEmpty_iff] using this
      simp only [pyZipGo, h, if_true, List.length_cons, ih]
      rw [minFold_map_tail hne]
    · have : ∃ t ∈ rest, t = [] := by
        by_contra hcon
        push_neg at hcon
        exact h (List.all_eq_true.mpr (fun t ht => by
          simpa [List.isEmpty_iff] using hcon t ht))
      rcases this with ⟨t, ht, htnil⟩
      simp [pyZipGo, h, minFold_eq_zero_of_mem_nil ht htnil]

theorem getD_tail (t : List α) (j : Nat) (d : α) :
    t.tail.getD j d = t.getD (j + 1) d := by
  cases t <;> simp [List.getD_cons_succ]

theorem pyZipGo_getD (d : α) (l : List α) (rest : List (List α)) (j : Nat)
    (hj : j < minFold rest l.length) :
    (pyZipGo l rest).getD j [] = (l :: rest).map (fun t => t.getD j d) := by
  induction l generalizing rest j with
  | nil =>
    simp only [List.length_nil, minFold_zero] at hj
    exact absurd hj (Nat.not_lt_zero j)
  | cons a l ih =>
    simp only [List.length_cons] at hj
    by_cases h : rest.all (fun t => !t.isEmpty)
    · have hne : ∀ t ∈ rest, t ≠ [] := by
        intro t ht
        have := List.all_eq_true.mp h t ht
        simpa [List.isEmpty_iff] using this
      cases j with
      | zero =>
        simp only [pyZipGo, h, if_true, List.getD_cons_zero, List.map_cons]
        congr 1
        apply List.map_congr_left
        intro t ht
        rcases t with _ | ⟨x, xs⟩
        · exact absurd rfl (hne _ ht)
        · rfl
      | succ j =>
        have hlt : j < minFold (rest.map List.tail) l.length := by
          have := minFold_map_tail hne l.length
          omega
        simp only [pyZipGo, h, if_true, List.getD_cons_succ]
        rw [ih (rest.map List.tail) j hlt]
        simp only [List.map_cons, List.map_map]
        congr 1
        apply List.map_congr_left
        intro t _
        exact getD_tail t j d
    · have : ∃ t ∈ rest, t = [] := by
        by_contra hcon
        push_neg at hcon
        exact h (List.all_eq_true.mpr (fun t ht => by
          simpa [List.isEmpty_iff] using hcon t ht))
      rcases this with ⟨t, ht, htnil⟩
      rw [minFold_eq_zero_of_mem_nil ht htnil] at hj
      cases hj

theorem pyZip_length {ls : List (List α)} (hne : ls ≠ []) :
    (pyZip ls).length = minLenAll ls := by
  cases ls with
  | nil => exact absurd rfl hne
  | cons l rest => exact pyZipGo_length l rest

theorem pyZip_getD (d : α) {ls : List (List α)} (hne : ls ≠ []) (j : Nat)
    (hj : j < minLenAll ls) :
    (pyZip ls).getD j [] = ls.map (fun t => t.getD j d) := by
  cases ls with
  | nil => exact absurd rfl hne
  | cons l rest => exact pyZipGo_getD d l rest j hj

theorem minLenAll_le_mem {ls : List (List α)} {t : List α} (h : t ∈ ls) :
    minLenAll ls ≤ t.length := by
  cases ls with
  | nil => cases h
  | cons l rest =>
    rcases List.mem_cons.mp h with rfl | hr
    · exact minFold_le_init rest t.length
    · exact minFold_le_mem hr l.length

theorem le_minLenAll {ls : List (List α)} {m : Nat} (hne : ls ≠ [])
    (h : ∀ t ∈ ls, m ≤ t.length) : m ≤ minLenAll ls := by
  cases ls with
  | nil => exact absurd rfl hne
  | cons l rest =>
    exact le_minFold (fun t ht => h t (List.mem_cons_of_mem l ht))
      (h l (List.mem_cons_self l rest))

/-! ## Lemmas about the block decomposition -/

theorem pyBlocks_length (f : α → β) (data : List α) (N : Nat) :
    (pyBlocks f data N).length = (data.length + N - 1) / N := by
  simp [pyBlocks, List.length_range']

theorem pyBlocks_getD (f : α → β) (data : List α) (N i : Nat)
    (hi : i < (data.length + N - 1) / N) :
    (pyBlocks f data N).getD i [] = ((data.drop (N * i)).take N).map f := by
  have hlen : i < (pyBlocks f data N).length := by rw [pyBlocks_length]; exact hi
  rw [List.getD_eq_getElem _ _ hlen]
  simp [pyBlocks, List.getElem_range']

theorem slice_getD (data : List α) (N i j : Nat) (d : α)
    (hj : j < N) (hidx : N * i + j < data.length) :
    ((data.drop (N * i)).take N).getD j d = data.getD (N * i + j) d := by
  have h1 : j < ((data.drop (N * i)).take N).length := by
    simp [List.length_take, List.length_drop]
    omega
  rw [List.getD_eq_getElem _ _ h1, List.getD_eq_getElem _ _ hidx,
    List.getElem_take, List.getElem_drop]

theorem count_exact {k N : Nat} (hN : 0 < N) : (k * N + N - 1) / N = k := by
  have h1 : k * N + N - 1 = (N - 1) + k * N := by omega
  rw [h1, Nat.add_mul_div_right _ _ hN, Nat.div_eq_of_lt (by omega)]
  omega

theorem count_add {k r N : Nat} (hN : 0 < N) (hr1 : 1 ≤ r) (hr2 : r < N) :
    (k * N + r + N - 1) / N = k + 1 := by
  have hx : (k + 1) * N = k * N + N := by ring
  have h1 : k * N + r + N - 1 = (r - 1) + (k + 1) * N := by omega
  rw [h1, Nat.add_mul_div_right _ _ hN, Nat.div_eq_of_lt (by omega)]
  omega

theorem count_ragged {L N : Nat} (hN : 0 < N) (hr : L % N ≠ 0) :
    (L + N - 1) / N = L / N + 1 := by
  have hmod := Nat.div_add_mod L N
  have hc : N * (L / N) = (L / N) * N := Nat.mul_comm N (L / N)
  have hlt : L % N < N := Nat.mod_lt _ hN
  have h2 : L + N - 1 = (L / N) * N + (L % N) + N - 1 := by omega
  rw [h2, count_add hN (by omega) hlt]

/-- Transposing the block decomposition of a list of exact length k * N
(k blocks of N rows each) yields N sequences of length k whose entries
are the rows at positions i, i + N, i + 2N, ... mapped through f. -/
theorem pyZip_pyBlocks_exact (f : α → β) (dA : α) (data : List α) (N k : Nat)
    (hN : 0 < N) (hk : 0 < k) (hlen : data.length = k * N) :
    (pyZip (pyBlocks f data N)).length = N ∧
    ∀ i, i < N →
      ((pyZip (pyBlocks f data N)).getD i []).length = k ∧
      ∀ j, j < k →
        ((pyZip (pyBlocks f data N)).getD i []).getD j (f dA) =
          f (data.getD (j * N + i) dA) := by
  have hcount : (pyBlocks f data N).length = k := by
    rw [pyBlocks_length, hlen, count_exact hN]
  have hne : pyBlocks f data N ≠ [] := by
    intro hnil
    rw [hnil] at hcount
    simp at hcount
    omega
  have hblock : ∀ j, j < k →
      (pyBlocks f data N).getD j [] = ((data.drop (N * j)).take N).map f := by
    intro j hj
    exact pyBlocks_getD f data N j (by rw [hlen, count_exact hN]; exact hj)
  have hblocklen : ∀ t ∈ pyBlocks f data N, t.length = N := by
    intro t ht
    obtain ⟨j, hjlt, hjt⟩ := List.mem_iff_getElem.mp ht
    rw [hcount] at hjlt
    have : (pyBlocks f data N).getD j [] = t := by
      rw [List.getD_eq_getElem _ _ (by rw [hcount]; exact hjlt)]
      exact hjt
    rw [← this, hblock j hjlt]
    simp [List.length_take, List.length_drop, hlen]
    have : N * j + N ≤ k * N := by
      calc N * j + N = (j + 1) * N := by ring
        _ ≤ k * N := Nat.mul_le_mul_right N hjlt
    omega
  have hmin : minLenAll (pyBlocks f data N) = N := by
    apply le_antisymm
    · have h0 : (pyBlocks f data N).getD 0 [] ∈ pyBlocks f data N := by
        rw [List.getD_eq_getElem _ _ (by rw [hcount]; exact hk)]
        exact List.getElem_mem _
      have := minLenAll_le_mem h0
      rwa [hblocklen _ h0] at this
    · exact le_minLenAll hne (fun t ht => le_of_eq (hblocklen t ht).symm)
  refine ⟨by rw [pyZip_length hne, hmin], ?_⟩
  intro i hi
  have hrow : (pyZip (pyBlocks f data N)).getD i [] =
      (pyBlocks f data N).map (fun t => t.getD i (f dA)) :=
    pyZip_getD (f dA) hne i (by rw [hmin]; exact hi)
  constructor
  · rw [hrow]
    simp [hcount]
  · intro j hj
    rw [hrow]
    have hjb : j < ((pyBlocks f data N).map (fun t => t.getD i (f dA))).length := by
      simp [hcount]; exact hj
    rw [List.getD_eq_getElem _ _ hjb, List.getElem_map]
    have hget : (pyBlocks f data N)[j] = ((data.drop (N * j)).take N).map f := by
      rw [← hblock j hj, List.getD_eq_getElem _ _ (by rw [hcount]; exact hj)]
    rw [hget]
    have hidx : N * j + i < data.length := by
      rw [hlen]
      have : N * j + N ≤ k * N := by
        calc N * j + N = (j + 1) * N := by ring
          _ ≤ k * N := Nat.mul_le_mul_right N hj
      omega
    have hi2 : i < (((data.drop (N * j)).take N).map f).length := by
      simp [List.length_take, List.length_drop]
      omega
    rw [List.getD_eq_getElem _ _ hi2, List.getElem_map]
    have hi3 : i < ((data.drop (N * j)).take N).length := by
      simpa using hi2
    rw [← List.getD_eq_getElem ((data.drop (N * j)).take N) dA hi3,
      slice_getD data N j i dA hi hidx, Nat.mul_comm N j]

/-- Transposing the block decomposition of a list whose length is not a
multiple of N yields len mod N sequences, each of length ceil(len / N):
Python zip silently truncates at the shortest (final, partial) block. -/
theorem pyZip_pyBlocks_ragged (f : α → β) (data : List α) (N : Nat)
    (hN : 0 < N) (hr : data.length % N ≠ 0) :
    (pyZip (pyBlocks f data N)).length = data.length % N ∧
    ∀ i, i < data.length % N →
      ((pyZip (pyBlocks f data N)).getD i []).length = data.length / N + 1 := by
  have hmod := Nat.div_add_mod data.length N
  have hlt : data.length % N < N := Nat.mod_lt _ hN
  have hcount : (pyBlocks f data N).length = data.length / N + 1 := by
    rw [pyBlocks_length, count_ragged hN hr]
  have hne : pyBlocks f data N ≠ [] := by
    intro hnil
    rw [hnil] at hcount
    simp at hcount
  have hblock : ∀ j, j < data.length / N + 1 →
      (pyBlocks f data N).getD j [] = ((data.drop (N * j)).take N).map f := by
    intro j hj
    exact pyBlocks_getD f data N j (by rw [count_ragged hN hr]; exact hj)
  have hblocklen : ∀ j, j < data.length / N + 1 →
      ((pyBlocks f data N).getD j []).length = min N (data.length - N * j) := by
    intro j hj
    rw [hblock j hj]
    simp [List.length_take, List.length_drop]
  have hmemlen : ∀ t ∈ pyBlocks f data N, data.length % N ≤ t.length := by
    intro t ht
    obtain ⟨j, hjlt, hjt⟩ := List.mem_iff_getElem.mp ht
    rw [hcount] at hjlt
    have hgd : (pyBlocks f data N).getD j [] = t := by
      rw [List.getD_eq_getElem _ _ (by rw [hcount]; exact hjlt)]
      exact hjt
    rw [← hgd, hblocklen j hjlt]
    have hj' : j ≤ data.length / N := by omega
    have : N * j ≤ N * (data.length / N) := Nat.mul_le_mul_left N hj'
    omega
  have hmin : minLenAll (pyBlocks f data N) = data.length % N := by
    apply le_antisymm
    · have hk : data.length / N < (pyBlocks f data N).length := by omega
      have h0 : (pyBlocks f data N).getD (data.length / N) [] ∈ pyBlocks f data N := by
        rw [List.getD_eq_getElem _ _ hk]
        exact List.getElem_mem _
      have hlast : ((pyBlocks f data N).getD (data.length / N) []).length =
          data.length % N := by
        rw [hblocklen (data.length / N) (by omega)]
        omega
      have := minLenAll_le_mem h0
      rwa [hlast] at this
    · exact le_minLenAll hne hmemlen
  refine ⟨by rw [pyZip_length hne, hmin], ?_⟩
  intro i hi
  obtain ⟨a, _⟩ : ∃ x, x ∈ data := by
    apply List.exists_mem_of_ne_nil
    intro hdnil
    rw [hdnil] at hr
    simp at hr
  have hrow : (pyZip (pyBlocks f data N)).getD i [] =
      (pyBlocks f data N).map (fun t => t.getD i (f a)) :=
    pyZip_getD (f a) hne i (by rw [hmin]; exact hi)
  rw [hrow]
  simp [hcount]

/-! ## Supporting lemmas for the run-period decoder -/

theorem extract_run_period_err (addMinute : PyDate → Int → PyDate)
    (start endRow : TimeRow) (e : String)
    (hdec : decodeInterval start.intervalType start.interval = .error e) :
    extract_run_period addMinute start endRow = .error e := by
  simp [extract_run_period, hdec, Bind.bind, Except.bind]

theorem extract_run_period_spec (addMinute : PyDate → Int → PyDate)
    (start endRow : TimeRow) (rf : ReportingFrequency) (aper mps : Int)
    (hdec : decodeInterval start.intervalType start.interval = .ok (rf, aper, mps)) :
    extract_run_period addMinute start endRow = .ok
      ({ stMonth := start.month,
         stDay := if rf = .named "Monthly" then 1 else start.day,
         stHour := 0,
         endMonth := (addMinute ⟨endRow.month, endRow.day, 0⟩ (1440 - mps)).month,
         endDay := (addMinute ⟨endRow.month, endRow.day, 0⟩ (1440 - mps)).day,
         endHour := (addMinute ⟨endRow.month, endRow.day, 0⟩ (1440 - mps)).hour,
         timestep := aper,
         isLeapYear := decide (start.year % 4 = 0) }, rf) := by
  by_cases hm : rf = ReportingFrequency.named "Monthly" <;>
    simp [extract_run_period, hdec, hm, Bind.bind, Except.bind]

theorem decodeInterval_min_per_step {c m : Int} {rf : ReportingFrequency}
    {aper mps : Int} (h : decodeInterval c m = .ok (rf, aper, mps)) :
    mps = if c ≤ 1 then m else 60 := by
  by_cases hc : c ≤ 1
  · by_cases hm : m = 0
    · simp [decodeInterval, hc, hm] at h
    · simp [decodeInterval, hc, hm] at h
      simp [hc, h.2.2.symm]
  · cases hcode : pyGetInt interval_codes c with
    | ok s =>
      simp [decodeInterval, hc, hcode] at h
      simp [hc, h.2.2.symm]
    | error e =>
      simp [decodeInterval, hc, hcode] at h

/-! ## Claims about the run-period decoder -/

/-- Claim C6: for every decoded run period with Monthly reporting
frequency the start day is 1 regardless of the day field of the start
time record; for every other frequency the start day equals the raw day
field. -/
theorem claim_C6_monthly_start_day (addMinute : PyDate → Int → PyDate)
    (start endRow : TimeRow) (ap : AnalysisPeriod) (freq : ReportingFrequency)
    (h : extract_run_period addMinute start endRow = .ok (ap, freq)) :
    (freq = .named "Monthly" → ap.stDay = 1) ∧
    (freq ≠ .named "Monthly" → ap.stDay = start.day) := by
  cases hdec : decodeInterval start.intervalType start.interval with
  | error e =>
    rw [extract_run_period_err addMinute start endRow e hdec] at h
    cases h
  | ok v =>
    obtain ⟨rf, aper, mps⟩ := v
    rw [extract_run_period_spec addMinute start endRow rf aper mps hdec] at h
    have h2 := Except.ok.inj h
    have hap := congrArg Prod.fst h2
    have hfreq := congrArg Prod.snd h2
    simp only at hap hfreq
    subst hfreq
    constructor <;> intro hm <;> rw [← hap] <;> simp [hm]

/-- Witness for claim C6 at a concrete Monthly run (interval code 3):
the stored start day 15 is replaced by 1. -/
theorem claim_C6_witness :
    (ReportingFrequency.named "Monthly" = ReportingFrequency.named "Monthly" →
      ({ stMonth := 7, stDay := 1, stHour := 0, endMonth := 8, endDay := 20,
         endHour := 1380, timestep := 1, isLeapYear := false } : AnalysisPeriod).stDay = 1) ∧
    (ReportingFrequency.named "Monthly" ≠ ReportingFrequency.named "Monthly" →
      ({ stMonth := 7, stDay := 1, stHour := 0, endMonth := 8, endDay := 20,
         endHour := 1380, timestep := 1, isLeapYear := false } : AnalysisPeriod).stDay =
        (15 : Int)) :=
  claim_C6_monthly_start_day
    (fun d m => { month := d.month, day := d.day, hour := d.hour + m })
    { timeIndex := 1, year := 2017, month := 7, day := 15, hour := 0, minute := 0,
      dst := 0, interval := 60, intervalType := 3 }
    { timeIndex := 2, year := 2017, month := 8, day := 20, hour := 0, minute := 0,
      dst := 0, interval := 60, intervalType := 3 }
    { stMonth := 7, stDay := 1, stHour := 0, endMonth := 8, endDay := 20,
      endHour := 1380, timestep := 1, isLeapYear := false }
    (.named "Monthly") (by rfl)

/-- Claim C7: the end boundary of every decoded run period is the end
record's date advanced by exactly 1440 - minutes_per_step minutes, where
minutes_per_step is the record's field when the interval code is at most
1 and 60 otherwise; the statement is parametric in the calendar
semantics of add_minute. -/
theorem claim_C7_end_boundary (addMinute : PyDate → Int → PyDate)
    (start endRow : TimeRow) (ap : AnalysisPeriod) (freq : ReportingFrequency)
    (h : extract_run_period addMinute start endRow = .ok (ap, freq)) :
    ∃ mps : Int, mps = (if start.intervalType ≤ 1 then start.interval else 60) ∧
      ap.endMonth = (addMinute ⟨endRow.month, endRow.day, 0⟩ (1440 - mps)).month ∧
      ap.endDay = (addMinute ⟨endRow.month, endRow.day, 0⟩ (1440 - mps)).day ∧
      ap.endHour = (addMinute ⟨endRow.month, endRow.day, 0⟩ (1440 - mps)).hour := by
  cases hdec : decodeInterval start.intervalType start.interval with
  | error e =>
    rw [extract_run_period_err addMinute start endRow e hdec] at h
    cases h
  | ok v =>
    obtain ⟨rf, aper, mps⟩ := v
    have hmps := decodeInterval_min_per_step hdec
    rw [extract_run_period_spec addMinute start endRow rf aper mps hdec] at h
    have h2 := Except.ok.inj h
    have hap := congrArg Prod.fst h2
    simp only at hap
    refine ⟨mps, hmps, ?_, ?_, ?_⟩ <;> rw [← hap]

/-- Witness for claim C7 at a concrete Monthly run whose stored
minutes-per-step field is 45: the decoder still advances the end
boundary by 1440 - 60 minutes because the interval code is above 1. -/
theorem claim_C7_witness :
    ∃ mps : Int, mps = (if (3 : Int) ≤ 1 then (45 : Int) else 60) ∧
      (8 : Int) = ((fun (d : PyDate) (m : Int) =>
        ({ month := d.month, day := d.day, hour := d.hour + m } : PyDate))
          ⟨8, 20, 0⟩ (1440 - mps)).month ∧
      (20 : Int) = ((fun (d : PyDate) (m : Int) =>
        ({ month := d.month, day := d.day, hour := d.hour + m } : PyDate))
          ⟨8, 20, 0⟩ (1440 - mps)).day ∧
      (1380 : Int) = ((fun (d : PyDate) (m : Int) =>
        ({ month := d.month, day := d.day, hour := d.hour + m } : PyDate))
          ⟨8, 20, 0⟩ (1440 - mps)).hour :=
  claim_C7_end_boundary
    (fun d m => { month := d.month, day := d.day, hour := d.hour + m })
    { timeIndex := 1, year := 2017, month := 7, day := 15, hour := 0, minute := 0,
      dst := 0, interval := 45, intervalType := 3 }
    { timeIndex := 2, year := 2017, month := 8, day := 20, hour := 0, minute := 0,
      dst := 0, interval := 45, intervalType := 3 }
    { stMonth := 7, stDay := 1, stHour := 0, endMonth := 8, endDay := 20,
      endHour := 1380, timestep := 1, isLeapYear := false }
    (.named "Monthly") (by rfl)

/-- Claim C8: the leap-year flag of every decoded run period is true
exactly when the start record's year field is divisible by 4 (no
Gregorian century exceptions). -/
theorem claim_C8_leap_year (addMinute : PyDate → Int → PyDate)
    (start endRow : TimeRow) (ap : AnalysisPeriod) (freq : ReportingFrequency)
    (h : extract_run_period addMinute start endRow = .ok (ap, freq)) :
    (ap.isLeapYear = true ↔ start.year % 4 = 0) := by
  cases hdec : decodeInterval start.intervalType start.interval with
  | error e =>
    rw [extract_run_period_err addMinute start endRow e hdec] at h
    cases h
  | ok v =>
    obtain ⟨rf, aper, mps⟩ := v
    rw [extract_run_period_spec addMinute start endRow rf aper mps hdec] at h
    have h2 := Except.ok.inj h
    have hap := congrArg Prod.fst h2
    simp only at hap
    rw [← hap]
    simp

/-- Witness for claim C8 at year 2100: divisible by 4, so the flag is
true although 2100 is not a Gregorian leap year. -/
theorem claim_C8_witness :
    ({ stMonth := 1, stDay := 1, stHour := 0, endMonth := 12, endDay := 31,
       endHour := 1380, timestep := 1, isLeapYear := true } : AnalysisPeriod).isLeapYear
        = true ↔ (2100 : Int) % 4 = 0 :=
  claim_C8_leap_year
    (fun d m => { month := d.month, day := d.day, hour := d.hour + m })
    { timeIndex := 1, year := 2100, month := 1, day := 1, hour := 0, minute := 0,
      dst := 0, interval := 60, intervalType := 1 }
    { timeIndex := 2, year := 2100, month := 12, day := 31, hour := 0, minute := 0,
      dst := 0, interval := 60, intervalType := 1 }
    { stMonth := 1, stDay := 1, stHour := 0, endMonth := 12, endDay := 31,
      endHour := 1380, timestep := 1, isLeapYear := true }
    (.steps 1) (by rfl)

/-- Counterexample to claim C2 as stated: for interval code 1 with 60
minutes per step the decoded frequency is int(60 / 60) = 1 step per
hour, not 3600 / 60 = 60; and for code 5 (beyond the fixed table) the
lookup raises instead of producing a table entry. -/
theorem claim_C2_counterexample :
    (decodeInterval 1 60 = .ok (.steps 1, 1, 60) ∧ (1 : Int) ≠ 3600 / 60) ∧
    decodeInterval 5 60 = .error "IndexError: index out of range" :=
  ⟨⟨rfl, by decide⟩, rfl⟩

/-- Claim C2 (amended): for an interval-type code at most 1 the decoded
frequency is int(60 / minutes-per-step) steps per hour (truncating
division) with the record's minutes-per-step kept; for codes 2 to 4 the
frequency is the entry of the fixed table (Timestep, Hourly, Daily,
Monthly, Annual) at index equal to the code, with timestep-per-hour 1
and minutes-per-step 60; codes 5 and above fail the table lookup. -/
theorem claim_C2_frequency_decoding (code m : Int) :
    (code ≤ 1 → m ≠ 0 →
      decodeInterval code m = .ok (.steps (Int.tdiv 60 m), Int.tdiv 60 m, m)) ∧
    (2 ≤ code → code ≤ 4 →
      decodeInterval code m = .ok (.named (interval_codes.getD code.toNat ""), 1, 60)) ∧
    (5 ≤ code → decodeInterval code m = .error "IndexError: index out of range") := by
  refine ⟨?_, ?_, ?_⟩
  · intro hc hm
    simp [decodeInterval, hc, hm]
  · intro hc2 hc4
    have : code = 2 ∨ code = 3 ∨ code = 4 := by omega
    rcases this with rfl | rfl | rfl <;> rfl
  · intro hc5
    have h1 : ¬ code ≤ 1 := by omega
    have h2 : (0 : Int) ≤ code := by omega
    have h3 : ¬ (code.toNat < interval_codes.length) := by
      simp [interval_codes]
      omega
    simp [decodeInterval, h1, pyGetInt, h2, pyGet, h3]

/-- Witness for amended claim C2: code 0 with 15-minute steps decodes to
4 steps per hour; code 3 decodes to the Monthly table entry. -/
theorem claim_C2_witness :
    decodeInterval 0 15 = .ok (.steps (Int.tdiv 60 15), Int.tdiv 60 15, 15) ∧
    decodeInterval 3 45 = .ok (.named (interval_codes.getD (3 : Int).toNat ""), 1, 60) :=
  ⟨(claim_C2_frequency_decoding 0 15).1 (by decide) (by decide),
   (claim_C2_frequency_decoding 3 45).2.1 (by decide) (by decide)⟩

/-! ## Supporting lemmas for the location extractor -/

theorem pyGet_eq_ok (l : List α) (i : Nat) (d : α) (h : i < l.length) :
    pyGet l i = .ok (l.getD i d) := by
  rw [List.getD_eq_getElem _ _ h]
  simp [pyGet, h]

theorem pyGet_ok_bound {l : List α} {i : Nat} {v : α}
    (h : pyGet l i = .ok v) : i < l.length := by
  by_cases hb : i < l.length
  · exact hb
  · simp [pyGet, hb] at h

theorem pyGetInt_neg_ok (l : List α) (i : Int) (k : Nat) (d : α)
    (hi : i < 0) (hk : (-i).toNat = k) (h : k ≤ l.length) :
    pyGetInt l i = .ok (l.getD (l.length - k) d) := by
  have h0 : ¬ (0 ≤ i) := by omega
  have hkpos : 0 < k := by omega
  have hb : l.length - k < l.length := by omega
  simp only [pyGetInt, h0, if_false, hk]
  rw [if_pos h, pyGet_eq_ok l (l.length - k) d hb]

theorem pyGetInt_neg_err (l : List α) (i : Int) (hi : i < 0)
    (h : l.length < (-i).toNat) :
    pyGetInt l i = .error "IndexError: index out of range" := by
  have h0 : ¬ (0 ≤ i) := by omega
  simp only [pyGetInt, h0, if_false]
  rw [if_neg (by omega)]

theorem pyGetInt_ok_neg_bound {l : List α} {i : Int} {v : α} (hi : i < 0)
    (h : pyGetInt l i = .ok v) : (-i).toNat ≤ l.length := by
  by_cases hb : (-i).toNat ≤ l.length
  · exact hb
  · rw [pyGetInt_neg_err l i hi (by omega)] at h
    cases h

theorem splitChar_ne_nil (sep : Char) (cs : List Char) : splitChar sep cs ≠ [] := by
  induction cs with
  | nil => simp [splitChar]
  | cons c cs ih =>
    simp only [splitChar]
    cases hs : splitChar sep cs with
    | nil => simp
    | cons t ts => by_cases hc : c = sep <;> simp [hc]

theorem pySplit_ne_nil (s : String) (sep : Char) : pySplit s sep ≠ [] := by
  simp [pySplit, splitChar_ne_nil]

theorem pySplit_length_pos (s : String) (sep : Char) : 0 < (pySplit s sep).length :=
  List.length_pos.mpr (pySplit_ne_nil s sep)

/-! ## Claims about the location extractor -/

/-- Counterexample to claim C3 as stated: on a well-formed 'General'
report the extracted elevation is the row at index 5 and the time zone
is the row at index 6 (the keyword arguments elevation=general[5][0]
and time_zone=general[6][0]), not the other way round as the claim
says. -/
theorem claim_C3_counterexample :
    extract_location ["Program Version", "RunPeriod",
      "Chicago OHare Intl Ap IL USA TMY3 WMO#=725300",
      "41.98", "-87.92", "201.00", "-6.00"] =
      .ok (some { city := "Chicago OHare Intl Ap IL USA",
                  source := "TMY3",
                  stationId := "725300",
                  latitude := "41.98",
                  longitude := "-87.92",
                  timeZone := "-6.00",
                  elevation := "201.00" }) ∧
    ("201.00" : String) ≠ "-6.00" :=
  ⟨rfl, by decide⟩

/-- Claim C3 (amended): on a 'General' report with at least 7 rows whose
row 2 splits into at least two tokens, the location takes latitude from
row 3, longitude from row 4, elevation from row 5 and time zone from
row 6; row 2 is split on spaces, all tokens but the last two joined as
city, the second-to-last token as source, and the text after the last
equals sign of the last token as station id. -/
theorem claim_C3_location_field_positions (general : List String)
    (h7 : 7 ≤ general.length)
    (htok : 2 ≤ (pySplit (general.getD 2 "") ' ').length) :
    extract_location general = .ok (some
      { city := String.intercalate " " ((pySplit (general.getD 2 "") ' ').take ((pySplit (general.getD 2 "") ' ').length - 2)),
        source := (pySplit (general.getD 2 "") ' ').getD ((pySplit (general.getD 2 "") ' ').length - 2) "",
        stationId := (pySplit ((pySplit (general.getD 2 "") ' ').getD ((pySplit (general.getD 2 "") ' ').length - 1) "") '=').getD ((pySplit ((pySplit (general.getD 2 "") ' ').getD ((pySplit (general.getD 2 "") ' ').length - 1) "") '=').length - 1) "",
        latitude := general.getD 3 "",
        longitude := general.getD 4 "",
        timeZone := general.getD 6 "",
        elevation := general.getD 5 "" }) := by
  have hne : general ≠ [] := by
    intro h0
    rw [h0] at h7
    simp at h7
  have htoklen : 1 ≤ (pySplit (general.getD 2 "") ' ').length := by omega
  have hstlen : 1 ≤ (pySplit ((pySplit (general.getD 2 "") ' ').getD
      ((pySplit (general.getD 2 "") ' ').length - 1) "") '=').length :=
    pySplit_length_pos _ _
  simp only [extract_location, if_neg hne, Bind.bind, Except.bind,
    pyGet_eq_ok general 2 "" (by omega),
    pyGetInt_neg_ok (pySplit (general.getD 2 "") ' ') (-2) 2 "" (by decide)
      (by decide) (by omega),
    pyGetInt_neg_ok (pySplit (general.getD 2 "") ' ') (-1) 1 "" (by decide)
      (by decide) htoklen,
    pyGetInt_neg_ok (pySplit ((pySplit (general.getD 2 "") ' ').getD
        ((pySplit (general.getD 2 "") ' ').length - 1) "") '=') (-1) 1 ""
      (by decide) (by decide) hstlen,
    pyGet_eq_ok general 3 "" (by omega),
    pyGet_eq_ok general 4 "" (by omega),
    pyGet_eq_ok general 6 "" (by omega),
    pyGet_eq_ok general 5 "" (by omega)]

/-- Witness for amended claim C3 at a concrete well-formed report. -/
theorem claim_C3_witness :
    extract_location ["v", "rp", "Denver Intl Ap TMY3 WMO#=725650", "39.83", "-104.65", "1650.00", "-7.00"] = .ok (some
      { city := String.intercalate " " ((pySplit ((["v", "rp", "Denver Intl Ap TMY3 WMO#=725650", "39.83", "-104.65", "1650.00", "-7.00"]).getD 2 "") ' ').take ((pySplit ((["v", "rp", "Denver Intl Ap TMY3 WMO#=725650", "39.83", "-104.65", "1650.00", "-7.00"]).getD 2 "") ' ').length - 2)),
        source := (pySplit ((["v", "rp", "Denver Intl Ap TMY3 WMO#=725650", "39.83", "-104.65", "1650.00", "-7.00"]).getD 2 "") ' ').getD ((pySplit ((["v", "rp", "Denver Intl Ap TMY3 WMO#=725650", "39.83", "-104.65", "1650.00", "-7.00"]).getD 2 "") ' ').length - 2) "",
        stationId := (pySplit ((pySplit ((["v", "rp", "Denver Intl Ap TMY3 WMO#=725650", "39.83", "-104.65", "1650.00", "-7.00"]).getD 2 "") ' ').getD ((pySplit ((["v", "rp", "Denver Intl Ap TMY3 WMO#=725650", "39.83", "-104.65", "1650.00", "-7.00"]).getD 2 "") ' ').length - 1) "") '=').getD ((pySplit ((pySplit ((["v", "rp", "Denver Intl Ap TMY3 WMO#=725650", "39.83", "-104.65", "1650.00", "-7.00"]).getD 2 "") ' ').getD ((pySplit ((["v", "rp", "Denver Intl Ap TMY3 WMO#=725650", "39.83", "-104.65", "1650.00", "-7.00"]).getD 2 "") ' ').length - 1) "") '=').length - 1) "",
        latitude := (["v", "rp", "Denver Intl Ap TMY3 WMO#=725650", "39.83", "-104.65", "1650.00", "-7.00"]).getD 3 "",
        longitude := (["v", "rp", "Denver Intl Ap TMY3 WMO#=725650", "39.83", "-104.65", "1650.00", "-7.00"]).getD 4 "",
        timeZone := (["v", "rp", "Denver Intl Ap TMY3 WMO#=725650", "39.83", "-104.65", "1650.00", "-7.00"]).getD 6 "",
        elevation := (["v", "rp", "Denver Intl Ap TMY3 WMO#=725650", "39.83", "-104.65", "1650.00", "-7.00"]).getD 5 "" }) :=
  claim_C3_location_field_positions
    ["v", "rp", "Denver Intl Ap TMY3 WMO#=725650", "39.83", "-104.65", "1650.00", "-7.00"]
    (by decide) (by decide)

/-- Inversion: a successful location extraction on a non-empty report
needs at least 7 rows and at least two tokens in row 2. -/
theorem extract_location_ok_bounds (general : List String) (loc : Option Location)
    (h : extract_location general = .ok loc) :
    general = [] ∨
      (7 ≤ general.length ∧ 2 ≤ (pySplit (general.getD 2 "") ' ').length) := by
  by_cases hne : general = []
  · exact Or.inl hne
  · right
    unfold extract_location at h
    rw [if_neg hne] at h
    cases h2 : pyGet general 2 with
    | error e => simp [h2, Bind.bind, Except.bind] at h
    | ok row2 =>
      have hb2 : 2 < general.length := pyGet_ok_bound h2
      have hrow : row2 = general.getD 2 "" := by
        rw [pyGet_eq_ok general 2 "" hb2] at h2
        exact (Except.ok.inj h2).symm
      simp only [h2, Bind.bind, Except.bind] at h
      cases hsrc : pyGetInt (pySplit row2 ' ') (-2) with
      | error e => simp [hsrc] at h
      | ok src =>
        have hbtok : 2 ≤ (pySplit row2 ' ').length := by
          have := pyGetInt_ok_neg_bound (by decide) hsrc
          simpa using this
        simp only [hsrc] at h
        cases hlast : pyGetInt (pySplit row2 ' ') (-1) with
        | error e => simp [hlast] at h
        | ok lastTok =>
          simp only [hlast] at h
          cases hst : pyGetInt (pySplit lastTok '=') (-1) with
          | error e => simp [hst] at h
          | ok station =>
            simp only [hst] at h
            cases h3 : pyGet general 3 with
            | error e => simp [h3] at h
            | ok lat =>
              simp only [h3] at h
              cases h4 : pyGet general 4 with
              | error e => simp [h4] at h
              | ok lon =>
                simp only [h4] at h
                cases h6 : pyGet general 6 with
                | error e => simp [h6] at h
                | ok tz =>
                  have hb6 : 6 < general.length := pyGet_ok_bound h6
                  rw [← hrow]
                  exact ⟨by omega, hbtok⟩

/-- Counterexample to claim C9 as stated: a non-empty malformed
'General' report with a single row makes the extraction fail with an
index error instead of yielding an absent location. -/
theorem claim_C9_counterexample :
    extract_location ["only row"] = .error "IndexError: index out of range" :=
  rfl

/-- Claim C9 (amended): an absent 'General' report yields an absent
location, but a malformed non-empty report does not: fewer than 7 rows,
or a row 2 with fewer than two tokens, make the extraction fail with an
index error rather than yield an absent location. -/
theorem claim_C9_malformed_report (general : List String) :
    (general = [] → extract_location general = .ok none) ∧
    (general ≠ [] → general.length < 7 → ∃ e, extract_location general = .error e) ∧
    (2 ≤ general.length → (pySplit (general.getD 2 "") ' ').length < 2 →
      ∃ e, extract_location general = .error e) := by
  refine ⟨?_, ?_, ?_⟩
  · intro h
    simp [extract_location, h]
  · intro hne hlen
    cases hres : extract_location general with
    | error e => exact ⟨e, rfl⟩
    | ok loc =>
      rcases extract_location_ok_bounds general loc hres with h0 | ⟨h7, _⟩
      · exact absurd h0 hne
      · omega
  · intro h2 htok
    cases hres : extract_location general with
    | error e => exact ⟨e, rfl⟩
    | ok loc =>
      rcases extract_location_ok_bounds general loc hres with h0 | ⟨_, ht⟩
      · rw [h0] at h2
        simp at h2
      · omega

/-- Witness for amended claim C9: the empty report yields an absent
location, and a three-row report fails with an index error. -/
theorem claim_C9_witness :
    extract_location [] = .ok none ∧
    ∃ e, extract_location ["a", "b", "c"] = .error e :=
  ⟨(claim_C9_malformed_report []).1 rfl,
   (claim_C9_malformed_report ["a", "b", "c"]).2.1 (by decide) (by decide)⟩

/-! ## Claims about the time-series reconstruction -/

/-- Counterexample to claim C1 as stated: the empty row list has length
0 = 0 * 2, yet reconstruction with 2 channels returns no sequence at all
(Python zip with no argument), not 2 empty sequences. -/
theorem claim_C1_counterexample :
    clean_timeseries_data ([] : List (ℚ × Int)) 2 = .ok [] ∧
    ([] : List (List ℚ)).length ≠ 2 :=
  ⟨rfl, by decide⟩

/-- Claim C1 (amended): for every row list of length k * N with N
channels and at least one timestep (k ≥ 1), reconstruction returns
exactly N sequences, each of length k, and the i-th sequence consists of
the value fields of the rows at positions i, i + N, i + 2N, ... in that
order. -/
theorem claim_C1_transposition (data : List (ℚ × Int)) (N k : Nat)
    (hN : 0 < N) (hk : 0 < k) (hlen : data.length = k * N) :
    ∃ res, clean_timeseries_data data N = .ok res ∧ res.length = N ∧
      ∀ i, i < N → (res.getD i []).length = k ∧
        ∀ j, j < k → (res.getD i []).getD j 0 = (data.getD (j * N + i) (0, 0)).1 := by
  have hmain := pyZip_pyBlocks_exact Prod.fst ((0 : ℚ), (0 : Int)) data N k hN hk hlen
  refine ⟨pyZip (pyBlocks Prod.fst data N), ?_, hmain.1, ?_⟩
  · simp [clean_timeseries_data, Nat.pos_iff_ne_zero.mp hN]
  · intro i hi
    obtain ⟨hl, hv⟩ := hmain.2 i hi
    exact ⟨hl, fun j hj => hv j hj⟩

/-- Witness for amended claim C1: the end-to-end scenario with 2
channels and 3 timesteps in channel-major order. -/
theorem claim_C1_witness :
    ∃ res, clean_timeseries_data
        [((10 : ℚ), (1 : Int)), (20, 1), (11, 2), (21, 2), (12, 3), (22, 3)] 2 =
        .ok res ∧ res.length = 2 ∧
      ∀ i, i < 2 → (res.getD i []).length = 3 ∧
        ∀ j, j < 3 → (res.getD i []).getD j 0 =
          (([((10 : ℚ), (1 : Int)), (20, 1), (11, 2), (21, 2), (12, 3),
            (22, 3)]).getD (j * 2 + i) (0, 0)).1 :=
  claim_C1_transposition
    [((10 : ℚ), (1 : Int)), (20, 1), (11, 2), (21, 2), (12, 3), (22, 3)] 2 3
    (by decide) (by decide) (by decide)

/-- Counterexample to claim C4 as stated: 3 rows for 2 channels is not
an exact multiple, yet reconstruction returns sequences (one truncated
sequence) instead of failing. -/
theorem claim_C4_counterexample :
    clean_timeseries_data [((1 : ℚ), (1 : Int)), (2, 1), (3, 2)] 2 =
      .ok [[1, 3]] :=
  rfl

/-- Claim C4 (amended): when the row count is not an exact multiple of
the channel count N the reconstruction does not fail; it silently
returns len mod N sequences, each of length ceil(len / N), truncating at
the incomplete final block. -/
theorem claim_C4_no_error_truncation (data : List (ℚ × Int)) (N : Nat)
    (hN : 0 < N) (hr : data.length % N ≠ 0) :
    ∃ res, clean_timeseries_data data N = .ok res ∧
      res.length = data.length % N ∧
      ∀ i, i < data.length % N → (res.getD i []).length = data.length / N + 1 := by
  have hmain := pyZip_pyBlocks_ragged Prod.fst data N hN hr
  exact ⟨pyZip (pyBlocks Prod.fst data N),
    by simp [clean_timeseries_data, Nat.pos_iff_ne_zero.mp hN], hmain.1, hmain.2⟩

/-- Witness for amended claim C4 at 3 rows and 2 channels. -/
theorem claim_C4_witness :
    ∃ res, clean_timeseries_data [((1 : ℚ), (1 : Int)), (2, 1), (3, 2)] 2 =
        .ok res ∧
      res.length = ([((1 : ℚ), (1 : Int)), (2, 1), (3, 2)]).length % 2 ∧
      ∀ i, i < ([((1 : ℚ), (1 : Int)), (2, 1), (3, 2)]).length % 2 →
        (res.getD i []).length = ([((1 : ℚ), (1 : Int)), (2, 1), (3, 2)]).length / 2 + 1 :=
  claim_C4_no_error_truncation [((1 : ℚ), (1 : Int)), (2, 1), (3, 2)] 2
    (by decide) (by decide)

/-! ## Claims about header construction and unit conversion -/

theorem getD_map_lt (f : α → β) (l : List α) (i : Nat) (da : α) (db : β)
    (h : i < l.length) : (l.map f).getD i db = f (l.getD i da) := by
  rw [List.getD_eq_getElem _ _ (by simpa using h), List.getD_eq_getElem _ _ h,
    List.getElem_map]

/-- Counterexample to claim C5 as stated: a batch whose reported unit is
already 'kWh' (a unit other than 'J') does not pass through unchanged:
its values are still divided by 3600000, because the conversion branch
tests the rewritten unit string. -/
theorem claim_C5_counterexample :
    dataCollectionsValues [{ rowIndex := 1, indexGroup := "Zone", keyValue := "Rm1", name := "Zone Energy", units := "kWh" }] [((3600000 : ℚ), (1 : Int))] = .ok [[1]] ∧
    (1 : ℚ) ≠ 3600000 := by
  constructor
  · simp [dataCollectionsValues, effectiveUnits, clean_and_convert_timeseries_data,
      pyBlocks, pyZip, pyZipGo]
  · norm_num

/-- Claim C5 (amended): the conversion branch is selected by the
effective unit of the batch, the first row's unit with 'J' rewritten to
'kWh'.  When the first row's unit is 'J' or already 'kWh', every
reconstructed value is the raw value divided by 3600000 and every
returned header carries the label 'kWh' (so a 'J' label is rewritten
exactly once); for every other unit the values and the label pass
through unchanged. -/
theorem claim_C5_unit_conversion (dt : String → String) (oname : String)
    (rp : AnalysisPeriod) (rows : List DictRow) (data : List (ℚ × Int)) (k : Nat)
    (hrows : rows ≠ []) (hk : 0 < k) (hlen : data.length = k * rows.length) :
    (((rows.headD default).units = "J" ∨ (rows.headD default).units = "kWh") →
      (∀ head ∈ dataCollectionsHeaders dt oname rows rp, head.units = "kWh") ∧
      ∃ res, dataCollectionsValues rows data = .ok res ∧ res.length = rows.length ∧
        ∀ i, i < rows.length → (res.getD i []).length = k ∧
          ∀ j, j < k → (res.getD i []).getD j 0 =
            (data.getD (j * rows.length + i) (0, 0)).1 / 3600000) ∧
    (((rows.headD default).units ≠ "J" ∧ (rows.headD default).units ≠ "kWh") →
      (∀ head ∈ dataCollectionsHeaders dt oname rows rp,
        head.units = (rows.headD default).units) ∧
      ∃ res, dataCollectionsValues rows data = .ok res ∧ res.length = rows.length ∧
        ∀ i, i < rows.length → (res.getD i []).length = k ∧
          ∀ j, j < k → (res.getD i []).getD j 0 =
            (data.getD (j * rows.length + i) (0, 0)).1) := by
  have hN : 0 < rows.length := List.length_pos.mpr hrows
  have hNne : rows.length ≠ 0 := Nat.pos_iff_ne_zero.mp hN
  constructor
  · intro hu
    have hunits : effectiveUnits (rows.headD default).units = "kWh" := by
      unfold effectiveUnits
      rcases hu with h | h <;> rw [h] <;> simp
    constructor
    · intro head hmem
      simp only [dataCollectionsHeaders, List.mem_map] at hmem
      obtain ⟨row, _, hback⟩ := hmem
      rw [← hback, hunits]
    · have hmain := pyZip_pyBlocks_exact (fun v : ℚ × Int => v.1 / 3600000)
        ((0 : ℚ), (0 : Int)) data rows.length k hN hk hlen
      refine ⟨pyZip (pyBlocks (fun v : ℚ × Int => v.1 / 3600000) data rows.length),
        ?_, hmain.1, ?_⟩
      · simp only [dataCollectionsValues]
        rw [hunits, if_pos rfl]
        simp only [clean_and_convert_timeseries_data]
        rw [if_neg hNne]
      · intro i hi
        obtain ⟨hl, hv⟩ := hmain.2 i hi
        refine ⟨hl, fun j hj => ?_⟩
        have hres := hv j hj
        rw [List.getD_eq_getElem _ _ (by rw [hl]; exact hj)] at hres ⊢
        exact hres
  · intro hu
    have hunits : effectiveUnits (rows.headD default).units =
        (rows.headD default).units := by
      unfold effectiveUnits
      rw [if_pos hu.1]
    constructor
    · intro head hmem
      simp only [dataCollectionsHeaders, List.mem_map] at hmem
      obtain ⟨row, _, hback⟩ := hmem
      rw [← hback, hunits]
    · have hmain := pyZip_pyBlocks_exact Prod.fst ((0 : ℚ), (0 : Int)) data
        rows.length k hN hk hlen
      refine ⟨pyZip (pyBlocks Prod.fst data rows.length), ?_, hmain.1, ?_⟩
      · simp only [dataCollectionsValues]
        rw [hunits, if_neg hu.2]
        simp only [clean_timeseries_data]
        rw [if_neg hNne]
      · intro i hi
        obtain ⟨hl, hv⟩ := hmain.2 i hi
        refine ⟨hl, fun j hj => ?_⟩
        have hres := hv j hj
        rw [List.getD_eq_getElem _ _ (by rw [hl]; exact hj)] at hres ⊢
        exact hres

/-- Witness for amended claim C5: one 'J' channel whose single raw value
7200000 is converted to 2 kWh, with the header label rewritten. -/
theorem claim_C5_witness :
    (∀ head ∈ dataCollectionsHeaders (fun u => u) "Zone Energy" [({ rowIndex := 1, indexGroup := "Zone", keyValue := "Rm1", name := "Zone Energy", units := "J" } : DictRow)] default, head.units = "kWh") ∧
    ∃ res, dataCollectionsValues [({ rowIndex := 1, indexGroup := "Zone", keyValue := "Rm1", name := "Zone Energy", units := "J" } : DictRow)] [((7200000 : ℚ), (1 : Int))] = .ok res ∧
      res.length = 1 ∧
      ∀ i, i < 1 → (res.getD i []).length = 1 ∧
        ∀ j, j < 1 → (res.getD i []).getD j 0 =
          (([((7200000 : ℚ), (1 : Int))]).getD (j * 1 + i) (0, 0)).1 / 3600000 :=
  (claim_C5_unit_conversion (fun u => u) "Zone Energy" default
    [{ rowIndex := 1, indexGroup := "Zone", keyValue := "Rm1", name := "Zone Energy", units := "J" }]
    [((7200000 : ℚ), (1 : Int))] 1 (by decide) (by decide) (by decide)).1 (Or.inl rfl)

/-- Counterexample to claim C10 as stated: when the stored object type
of a row is the literal string 'type', the two entries of the Python
dict literal collide and the header metadata has exactly one key, not
two. -/
theorem claim_C10_counterexample :
    ((dataCollectionsHeaders (fun u => u) "Zone Energy" [({ rowIndex := 1, indexGroup := "type", keyValue := "Rm1", name := "Zone Energy", units := "C" } : DictRow)] default).getD 0 default).metadata = [("type", "Rm1")] ∧
    ([("type", "Rm1")] : List (String × String)).length ≠ 2 :=
  ⟨rfl, by decide⟩

/-- Claim C10 (amended): every returned header carries the units of the
first matching row only (with 'J' rewritten to 'kWh') and the data type
derived from those units, regardless of the units stored on later rows;
the metadata of the i-th header is the dict literal with the output name
under 'type' and the row's object name under the object key, which is
'Surface' whenever the requested output name contains 'Surface' and the
row's stored object type otherwise; the metadata has exactly the two
keys 'type' and the object key unless the object key is itself the
literal 'type', in which case the entries collapse to the single key
'type'. -/
theorem claim_C10_first_row_units (dt : String → String) (oname : String)
    (rp : AnalysisPeriod) (rows : List DictRow) :
    (dataCollectionsHeaders dt oname rows rp).length = rows.length ∧
    ∀ i, i < rows.length →
      ((dataCollectionsHeaders dt oname rows rp).getD i default).units =
          effectiveUnits ((rows.headD default).units) ∧
      ((dataCollectionsHeaders dt oname rows rp).getD i default).dataType =
          dt (effectiveUnits ((rows.headD default).units)) ∧
      ((dataCollectionsHeaders dt oname rows rp).getD i default).metadata =
          pyDict2 "type" (rows.getD i default).name
            (if !(strContains "Surface" oname) then (rows.getD i default).indexGroup
              else "Surface")
            (rows.getD i default).keyValue ∧
      (((dataCollectionsHeaders dt oname rows rp).getD i default).metadata.map
          Prod.fst =
        if (if !(strContains "Surface" oname) then (rows.getD i default).indexGroup
              else "Surface") = "type"
        then ["type"]
        else ["type", if !(strContains "Surface" oname)
              then (rows.getD i default).indexGroup else "Surface"]) := by
  constructor
  · simp [dataCollectionsHeaders]
  · intro i hi
    have hget : (dataCollectionsHeaders dt oname rows rp).getD i default =
        (fun row : DictRow =>
          ({ dataType := dt (effectiveUnits ((rows.headD default).units)),
             units := effectiveUnits ((rows.headD default).units),
             period := rp,
             metadata := pyDict2 "type" row.name
               (if !(strContains "Surface" oname) then row.indexGroup
                 else "Surface") row.keyValue } : HeaderL))
          (rows.getD i default) := by
      simp only [dataCollectionsHeaders]
      exact getD_map_lt _ rows i default default hi
    rw [hget]
    refine ⟨rfl, rfl, rfl, ?_⟩
    by_cases hk : (if !(strContains "Surface" oname)
        then (rows.getD i default).indexGroup else "Surface") = "type"
    · simp only [pyDict2, hk, if_pos rfl]
      simp [hk]
    · simp only [pyDict2]
      rw [if_neg (fun hx => hk hx.symm), if_neg hk]
      simp

/-- Witness for amended claim C10 at a two-row batch whose rows store
different units: both headers carry the first row's unit. -/
theorem claim_C10_witness :
    (dataCollectionsHeaders (fun u => u) "Zone Energy" [({ rowIndex := 1, indexGroup := "Zone", keyValue := "Rm1", name := "Zone Energy", units := "J" } : DictRow), { rowIndex := 2, indexGroup := "Zone", keyValue := "Rm2", name := "Zone Energy", units := "C" }] default).length = 2 ∧
    ∀ i, i < 2 →
      ((dataCollectionsHeaders (fun u => u) "Zone Energy" [({ rowIndex := 1, indexGroup := "Zone", keyValue := "Rm1", name := "Zone Energy", units := "J" } : DictRow), { rowIndex := 2, indexGroup := "Zone", keyValue := "Rm2", name := "Zone Energy", units := "C" }] default).getD i default).units =
          effectiveUnits "J" ∧
      ((dataCollectionsHeaders (fun u => u) "Zone Energy" [({ rowIndex := 1, indexGroup := "Zone", keyValue := "Rm1", name := "Zone Energy", units := "J" } : DictRow), { rowIndex := 2, indexGroup := "Zone", keyValue := "Rm2", name := "Zone Energy", units := "C" }] default).getD i default).dataType =
          (fun u => u) (effectiveUnits "J") ∧
      ((dataCollectionsHeaders (fun u => u) "Zone Energy" [({ rowIndex := 1, indexGroup := "Zone", keyValue := "Rm1", name := "Zone Energy", units := "J" } : DictRow), { rowIndex := 2, indexGroup := "Zone", keyValue := "Rm2", name := "Zone Energy", units := "C" }] default).getD i default).metadata =
          pyDict2 "type" (([({ rowIndex := 1, indexGroup := "Zone", keyValue := "Rm1", name := "Zone Energy", units := "J" } : DictRow), { rowIndex := 2, indexGroup := "Zone", keyValue := "Rm2", name := "Zone Energy", units := "C" }]).getD i default).name
            (if !(strContains "Surface" "Zone Energy") then (([({ rowIndex := 1, indexGroup := "Zone", keyValue := "Rm1", name := "Zone Energy", units := "J" } : DictRow), { rowIndex := 2, indexGroup := "Zone", keyValue := "Rm2", name := "Zone Energy", units := "C" }]).getD i default).indexGroup else "Surface")
            (([({ rowIndex := 1, indexGroup := "Zone", keyValue := "Rm1", name := "Zone Energy", units := "J" } : DictRow), { rowIndex := 2, indexGroup := "Zone", keyValue := "Rm2", name := "Zone Energy", units := "C" }]).getD i default).keyValue ∧
      (((dataCollectionsHeaders (fun u => u) "Zone Energy" [({ rowIndex := 1, indexGroup := "Zone", keyValue := "Rm1", name := "Zone Energy", units := "J" } : DictRow), { rowIndex := 2, indexGroup := "Zone", keyValue := "Rm2", name := "Zone Energy", units := "C" }] default).getD i default).metadata.map Prod.fst =
        if (if !(strContains "Surface" "Zone Energy") then (([({ rowIndex := 1, indexGroup := "Zone", keyValue := "Rm1", name := "Zone Energy", units := "J" } : DictRow), { rowIndex := 2, indexGroup := "Zone", keyValue := "Rm2", name := "Zone Energy", units := "C" }]).getD i default).indexGroup else "Surface") = "type"
        then ["type"]
        else ["type", if !(strContains "Surface" "Zone Energy") then (([({ rowIndex := 1, indexGroup := "Zone", keyValue := "Rm1", name := "Zone Energy", units := "J" } : DictRow), { rowIndex := 2, indexGroup := "Zone", keyValue := "Rm2", name := "Zone Energy", units := "C" }]).getD i default).indexGroup else "Surface"]) :=
  claim_C10_first_row_units (fun u => u) "Zone Energy" default
    [{ rowIndex := 1, indexGroup := "Zone", keyValue := "Rm1", name := "Zone Energy", units := "J" },
     { rowIndex := 2, indexGroup := "Zone", keyValue := "Rm2", name := "Zone Energy", units := "C" }]
